import Mathlib

/-!
Verification development for `evcouplings/visualize/taxa.py`.

The module is embedded shallowly:

* A pandas cell is `Cell := Option String` (`none` models NaN / an absent
  value); a DataFrame row is an ordered association list of column name to
  cell, and a DataFrame is a list of rows.
* The external `ete3.NCBITaxa` handle is modelled as a structure of total
  functions: `get_lineage` returns `none` exactly when the real call raises
  `ValueError` for that identifier, and `name` / `rank` model
  `get_taxid_translator` / `get_rank` applied to one node of a lineage
  (`get_rank`'s returned dictionary is modelled as the chain-ordered list of
  `(node, rank)` pairs).
* Python exceptions caught by the code are modelled with `Option`; the
  `print`-based warning of `load_taxonomy_lineage` is modelled by a list of
  the identifiers that were skipped, and the `ncbi.get_lineage` invocations
  are modelled by a list of the integer arguments passed to them.
* In-place mutation (`sunburst`'s `fillna(..., inplace=True)` and column
  assignment) is modelled by explicit state passing: `sunburst` returns both
  the figure and the caller's table as it stands after the call.
* The integer `1` stored in the `"count"` column is represented by the
  string `"1"`, since cells carry strings.
-/

/-- A pandas cell: `none` models NaN / a missing value. -/
abbrev Cell := Option String

/-- A DataFrame row: ordered association list of column name to cell. -/
abbrev Row := List (String × Cell)

/-- A DataFrame: list of rows. -/
abbrev DataFrame := List Row

/-- Column access on one row: the first pair with the given column name,
`none` when the column is missing (the code never reads a missing column). -/
def getCell (r : Row) (c : String) : Cell :=
  ((r.find? (fun p => p.1 == c)).map Prod.snd).getD none

/-- Whether a row has a column of the given name. -/
def hasCol (r : Row) (c : String) : Bool :=
  r.any (fun p => p.1 == c)

/-- Column assignment `df[c] = v` on one row: replace the cell if the column
exists, otherwise append the new column at the end. -/
def setCell (r : Row) (c : String) (v : Cell) : Row :=
  if r.any (fun p => p.1 == c) then
    r.map (fun p => if p.1 == c then (c, v) else p)
  else
    r ++ [(c, v)]

/-- `df.getD i []`: the i-th row, the empty row out of range. -/
def rowAt (df : DataFrame) (i : Nat) : Row :=
  df.getD i []

/-- `str.split('=')` on the character list of a string: the segments between
occurrences of `'='` (always at least one segment, as in Python). -/
def splitEqChars : List Char → List (List Char)
  | [] => [[]]
  | c :: cs =>
    match splitEqChars cs with
    | [] => [[]]
    | seg :: rest => if c = '=' then [] :: seg :: rest else (c :: seg) :: rest

/-- `annotation['Tax'].str.split('=').str[-1]` applied to one string: the
segment after the last `'='` (the whole string when there is no `'='`). -/
def lastEq (s : String) : String :=
  String.mk ((splitEqChars s.data).getLastD [])

/-- Python `int(...)` on the identifier strings this module feeds it: succeeds
exactly on non-empty digit strings (on anything else — including the NaN that
a missing annotation produces — `int` raises `ValueError`, modelled by
`none` at the call site). -/
def int? (s : String) : Option Nat :=
  if s.data ≠ [] ∧ s.data.all Char.isDigit then
    some (s.data.foldl (fun n c => n * 10 + (c.toNat - 48)) 0)
  else
    none

/-- `pd.Series.unique().tolist()`: distinct values in first-occurrence
order. -/
def uniqueList (xs : List Cell) : List Cell :=
  xs.foldl (fun acc x => if x ∈ acc then acc else acc ++ [x]) []

/-- Python dict lookup on an association list (keys are unique by
construction of `dict_set`). -/
def dict_get (d : List (String × Nat)) (k : String) : Option Nat :=
  (d.find? (fun p => p.1 == k)).map Prod.snd

/-- Python dict insertion `d[k] = v`: update the value in place if the key
exists, otherwise append the binding. -/
def dict_set (d : List (String × Nat)) (k : String) (v : Nat) : List (String × Nat) :=
  if d.any (fun p => p.1 == k) then
    d.map (fun p => if p.1 == k then (k, v) else p)
  else
    d ++ [(k, v)]

/-- `dict((v,k) for k,v in items)`: sequential insertion keyed by the second
component, so a later pair with the same key overwrites an earlier one. -/
def dict_invert (ps : List (Nat × String)) : List (String × Nat) :=
  ps.foldl (fun d p => dict_set d p.2 p.1) []

/-- The external `ete3.NCBITaxa` handle.  `get_lineage` returns the ancestor
chain of an identifier, `none` when the real call raises `ValueError`;
`name` and `rank` give the translator name and the rank label of one node. -/
structure NCBITaxa where
  get_lineage : Nat → Option (List Nat)
  name : Nat → String
  rank : Nat → String

/-- The ordered keys of `rank_sequencevalue_hm` in `load_taxonomy_lineage`. -/
def ranks : List String :=
  ["superkingdom", "phylum", "genus", "class", "subphylum", "family", "order", "species"]

/-- One iteration of the loop body of `load_taxonomy_lineage` for one resolved
lineage: pair each chain node with its rank label, invert that dictionary
(later node wins per rank), and per recognized rank record the node's
translated name, `none` when the rank does not occur in the chain. -/
def rankRow (ncbi : NCBITaxa) (lineage : List Nat) : Row :=
  let lineageid_rank_dict := lineage.map (fun lid => (lid, ncbi.rank lid))
  let rank_lineageid_dict := dict_invert lineageid_rank_dict
  ranks.map (fun rk =>
    (rk, (dict_get rank_lineageid_dict rk).map ncbi.name))

/-- Resolution of one identifier in `load_taxonomy_lineage`: `none` when
`int(tax_id)` or `ncbi.get_lineage` raises `ValueError` (caught by the
`except` clause), otherwise the rank record of the lineage. -/
def resolveOne (ncbi : NCBITaxa) (tax_id : Cell) : Option Row :=
  match tax_id.bind int? with
  | none => none
  | some tid =>
    match ncbi.get_lineage tid with
    | none => none
    | some lineage => some (rankRow ncbi lineage)

/-- Observable result of `load_taxonomy_lineage`: the rows of the returned
DataFrame (one per identifier that resolved, in input order), the identifiers
whose `ValueError` was caught and warned about, and the arguments of the
`ncbi.get_lineage` calls that were issued, in order. -/
structure LoadResult where
  rows : List Row
  warnings : List Cell
  calls : List Nat
  deriving DecidableEq, Repr

/-- `load_taxonomy_lineage(tax_ids, ncbi)`.  For each identifier: evaluate
`int(tax_id)` (a `ValueError` here is caught before any database call), then
call `ncbi.get_lineage` (recording the call), and on success append one rank
record row; a caught `ValueError` prints a warning and appends nothing. -/
def load_taxonomy_lineage (tax_ids : List Cell) (ncbi : NCBITaxa) : LoadResult :=
  match tax_ids with
  | [] => ⟨[], [], []⟩
  | tax_id :: rest =>
    let r := load_taxonomy_lineage rest ncbi
    match tax_id.bind int? with
    | none => ⟨r.rows, tax_id :: r.warnings, r.calls⟩
    | some tid =>
      match ncbi.get_lineage tid with
      | none => ⟨r.rows, tax_id :: r.warnings, tid :: r.calls⟩
      | some lineage => ⟨rankRow ncbi lineage :: r.rows, r.warnings, tid :: r.calls⟩

/-- A rank record whose every value is absent: what `pd.concat` pads with for
identifiers beyond the length of the resolver's output, and what a left merge
fills in for an unmatched left row. -/
def emptyRankRow : Row :=
  ranks.map (fun rk => (rk, (none : Cell)))

/-- `pd.concat([pd.Series(tax_ids, name='tax_ID'), taxs], axis=1)`: positional
alignment of the identifier series with the resolver's rows, padding the rank
columns with NaN once the rows run out (in this program the rows are never
longer than the identifier list). -/
def concat_taxid_ranks : List Cell → List Row → List Row
  | [], _ => []
  | t :: ts, rows =>
    (("tax_ID", t) :: rows.headD emptyRankRow) :: concat_taxid_ranks ts rows.tail

/-- `left.merge(right, on='tax_ID', how='left')`: each left row is paired with
every right row whose `tax_ID` cell matches; with no match the right columns
(here: the rank columns) are filled with NaN.  Left column order is kept and
the right row's key column is not repeated. -/
def mergeLeft (left right : List Row) : List Row :=
  (left.map (fun lr =>
    let ms := right.filter (fun rr => getCell rr "tax_ID" == getCell lr "tax_ID")
    if ms.isEmpty then
      [lr ++ emptyRankRow]
    else
      ms.map (fun rr => lr ++ rr.filter (fun p => p.1 != "tax_ID")))).flatten

/-- `annotation['tax_ID'] = annotation['Tax'].str.split('=').str[-1]`:
extract the identifier column row by row. -/
def extract_tax_id_col (annot : DataFrame) : DataFrame :=
  annot.map (fun r => setCell r "tax_ID" ((getCell r "Tax").map lastEq))

/-- `annotation['tax_ID'].unique().tolist()` after the extraction step. -/
def tax_ids_of (annot : DataFrame) : List Cell :=
  uniqueList ((extract_tax_id_col annot).map (fun r => getCell r "tax_ID"))

/-- `get_taxa(annotation, format, database_file)`.  The `format` argument is
inspected and ignored by the code; the constructed `NCBITaxa(taxdump=...)`
handle is passed in as `ncbi`.  Extract `tax_ID`, deduplicate, resolve the
deduplicated list, glue the identifier series onto the resolver's rows
positionally, and left-merge back onto the annotation table. -/
def get_taxa (annot : DataFrame) (fmt : String) (ncbi : NCBITaxa) : DataFrame :=
  let _ := fmt
  let annot := extract_tax_id_col annot
  let tax_ids := uniqueList (annot.map (fun r => getCell r "tax_ID"))
  let taxs := (load_taxonomy_lineage tax_ids ncbi).rows
  let taxs := concat_taxid_ranks tax_ids taxs
  mergeLeft annot taxs

/-- The `ncbi.get_lineage` call trace of one `get_taxa` run. -/
def get_taxa_lineage_calls (annot : DataFrame) (ncbi : NCBITaxa) : List Nat :=
  (load_taxonomy_lineage (tax_ids_of annot) ncbi).calls

/-- `COLOR_DISCRETE_MAP` of the module. -/
def COLOR_DISCRETE_MAP : List (String × String) :=
  [("Bacteria", "#56B4E9"), ("Eukaryota", "#D53500"), ("Archaea", "#E69F00"),
   ("Viruses", "#AB63FA"), ("Other", "#189e3c")]

/-- `SUNBURST_HIERARCHY` of the module. -/
def SUNBURST_HIERARCHY : List String :=
  ["superkingdom", "phylum", "order"]

/-- The `plotly.express.sunburst` call, recorded with the exact arguments the
code passes. -/
structure Figure where
  data : DataFrame
  path : List String
  values : String
  title : String
  color : String
  color_discrete_map : List (String × String)
  deriving DecidableEq, Repr

/-- `sunburst(annotation, title, hier, color_map)`.  `fillna("Other",
inplace=True)` replaces every absent cell of the caller's table, then
`annotation["count"] = 1` adds the helper column, and the table is handed to
`px.sunburst(annotation, path=hier, values='count', title=title,
color=hier[0], color_discrete_map=color_map)`.  The second component of the
result is the caller's table after the two in-place mutations. -/
def sunburst (annot : DataFrame) (title : String) (hier : List String)
    (color_map : List (String × String)) : Figure × DataFrame :=
  let annot := annot.map (fun r => r.map (fun p => (p.1, some (p.2.getD "Other"))))
  let annot := annot.map (fun r => setCell r "count" (some "1"))
  (⟨annot, hier, "count", title, hier.headD "", color_map⟩, annot)

/-- The right-hand contribution of the left merge for one left row: the
matching right row with its key column stripped, or a fully absent rank record
when no right row matches.  (Matching rows are unique in this program because
the right table is keyed by the deduplicated identifier list.) -/
def matchRow (lr : Row) (right : List Row) : Row :=
  match right.find? (fun rr => getCell rr "tax_ID" == getCell lr "tax_ID") with
  | none => emptyRankRow
  | some rr => rr.filter (fun p => p.1 != "tax_ID")

/-- A small taxonomy oracle for concrete checks: identifier 9 resolves with
the two-node chain [1, 9]; every other identifier raises ValueError. -/
def testNCBI : NCBITaxa where
  get_lineage := fun t => if t = 9 then some [1, 9] else none
  name := fun t => if t = 9 then "Species9" else "Root"
  rank := fun t => if t = 9 then "species" else "no rank"

/-- A taxonomy oracle reproducing the spec's example for identifier 9606
(human): seven recognized ranks along the chain and no subphylum node. -/
def humanNCBI : NCBITaxa where
  get_lineage := fun t =>
    if t = 9606 then some [131567, 2759, 7711, 40674, 9443, 9604, 9605, 9606] else none
  name := fun t =>
    if t = 2759 then "Eukaryota"
    else if t = 7711 then "Chordata"
    else if t = 40674 then "Mammalia"
    else if t = 9443 then "Primates"
    else if t = 9604 then "Hominidae"
    else if t = 9605 then "Homo"
    else if t = 9606 then "Homo sapiens"
    else "cellular organisms"
  rank := fun t =>
    if t = 2759 then "superkingdom"
    else if t = 7711 then "phylum"
    else if t = 40674 then "class"
    else if t = 9443 then "order"
    else if t = 9604 then "family"
    else if t = 9605 then "genus"
    else if t = 9606 then "species"
    else "no rank"

/-- A taxonomy oracle whose chain for identifier 3 carries two nodes with the
same rank label "genus" (node 2 before node 3). -/
def dupRankNCBI : NCBITaxa where
  get_lineage := fun t => if t = 3 then some [1, 2, 3] else none
  name := fun t =>
    if t = 1 then "RootName" else if t = 2 then "GenusEarly" else "GenusLate"
  rank := fun t => if t = 1 then "no rank" else "genus"

/-- One-row annotation table carrying the spec's example annotation value. -/
def exAnnot : DataFrame := [[("Tax", some "OS=Homo sapiens Tax=9606")]]

/-- Two-row table whose first identifier (7) fails chain resolution under
`testNCBI` and whose second (9) resolves. -/
def exMix : DataFrame := [[("Tax", some "T=7")], [("Tax", some "T=9")]]

/-- Two rows sharing one distinct extracted identifier ("abc") that fails
integer parsing. -/
def exNoParse : DataFrame := [[("Tax", some "x=abc")], [("Tax", some "x=abc")]]

/-- One row whose annotation value contains no '=' character. -/
def exNoEq : DataFrame := [[("Tax", some "12345")]]

/-- One enriched row with an absent intermediate rank, for the renderer. -/
def exSun : DataFrame := [[("superkingdom", some "Bacteria"), ("phylum", none)]]

/-! ### Basic facts about rows and cells -/

theorem getCell_keyed_map (l : List String) (g : String → Cell) (r : String)
    (h : r ∈ l) : getCell (l.map (fun k => (k, g k))) r = g r := by
  induction l with
  | nil => cases h
  | cons a l ih =>
    rw [List.map_cons]
    by_cases ha : a = r
    · subst ha
      rw [getCell, List.find?_cons_of_pos _ (by simp)]
      rfl
    · have hr : r ∈ l := by
        rcases List.mem_cons.mp h with h1 | h1
        · exact absurd h1.symm ha
        · exact h1
      rw [getCell, List.find?_cons_of_neg _ (by simp [ha])]
      exact ih hr

theorem getCell_append_left (r s : Row) (c : String) (h : hasCol r c = true) :
    getCell (r ++ s) c = getCell r c := by
  rcases ho : r.find? (fun p => p.1 == c) with _ | p
  · exfalso
    rw [List.find?_eq_none] at ho
    rcases List.any_eq_true.mp h with ⟨p, hp, hpc⟩
    exact ho p hp hpc
  · simp [getCell, List.find?_append, ho]

theorem find?_setCell_map (r : Row) (c : String) (v : Cell)
    (h : r.any (fun p => p.1 == c) = true) :
    (r.map (fun p => if p.1 == c then (c, v) else p)).find? (fun p => p.1 == c)
      = some (c, v) := by
  induction r with
  | nil => cases h
  | cons p r ih =>
    cases hp : (p.1 == c) with
    | true =>
      rw [List.map_cons, if_pos hp]
      simp [List.find?_cons]
    | false =>
      rw [List.map_cons, if_neg (by simp [hp])]
      rw [List.find?_cons]
      simp only [hp]
      have h' : r.any (fun p => p.1 == c) = true := by
        rcases List.any_eq_true.mp h with ⟨q, hq, hqc⟩
        rcases List.mem_cons.mp hq with h1 | h1
        · rw [h1] at hqc
          rw [hqc] at hp
          cases hp
        · exact List.any_eq_true.mpr ⟨q, h1, hqc⟩
      exact ih h'

theorem getCell_setCell_self (r : Row) (c : String) (v : Cell) :
    getCell (setCell r c v) c = v := by
  rw [setCell]
  by_cases h : r.any (fun p => p.1 == c)
  · rw [if_pos h, getCell, find?_setCell_map r c v h]
    rfl
  · rw [if_neg h, getCell, List.find?_append]
    have hn : r.find? (fun p => p.1 == c) = none := by
      rw [List.find?_eq_none]
      intro p hp hpc
      exact h (List.any_eq_true.mpr ⟨p, hp, hpc⟩)
    rw [hn]
    simp

theorem hasCol_setCell_self (r : Row) (c : String) (v : Cell) :
    hasCol (setCell r c v) c = true := by
  rw [setCell]
  by_cases h : r.any (fun p => p.1 == c)
  · rw [if_pos h, hasCol, List.any_eq_true]
    rcases List.any_eq_true.mp h with ⟨p, hp, hpc⟩
    refine ⟨if p.1 == c then (c, v) else p, List.mem_map.mpr ⟨p, hp, rfl⟩, ?_⟩
    rw [if_pos hpc]
    simp
  · rw [if_neg h, hasCol, List.any_eq_true]
    exact ⟨(c, v), List.mem_append.mpr (Or.inr (by simp)), by simp⟩

theorem find?_setCell_map_ne (r : Row) (c c' : String) (v : Cell) (hne : c ≠ c') :
    (r.map (fun p => if p.1 == c then (c, v) else p)).find? (fun p => p.1 == c')
      = r.find? (fun p => p.1 == c') := by
  induction r with
  | nil => rfl
  | cons p r ih =>
    cases hp : (p.1 == c) with
    | true =>
      rw [List.map_cons, if_pos hp]
      have h2 : (p.1 == c') = false := by
        rw [beq_iff_eq] at hp
        simp [hp, hne]
      rw [List.find?_cons, List.find?_cons]
      simp only [h2]
      have h1 : ((c, v).1 == c') = false := by simp [hne]
      simp only [h1]
      exact ih
    | false =>
      rw [List.map_cons, if_neg (by simp [hp])]
      rw [List.find?_cons, List.find?_cons]
      cases hp' : (p.1 == c') with
      | true => simp
      | false => simp only [hp']; exact ih

theorem getCell_setCell_ne (r : Row) (c c' : String) (v : Cell) (hne : c ≠ c') :
    getCell (setCell r c v) c' = getCell r c' := by
  rw [setCell]
  by_cases h : r.any (fun p => p.1 == c)
  · rw [if_pos h, getCell, getCell, find?_setCell_map_ne r c c' v hne]
  · rw [if_neg h, getCell, getCell, List.find?_append]
    rcases ho : r.find? (fun p => p.1 == c') with _ | p
    · simp [hne]
    · rw [ho]
      rfl

theorem rowAt_map (f : Row → Row) (l : DataFrame) (i : Nat) (h : i < l.length) :
    rowAt (l.map f) i = f (rowAt l i) := by
  induction l generalizing i with
  | nil => cases h
  | cons r l ih =>
    cases i with
    | zero => rfl
    | succ i => exact ih i (Nat.lt_of_succ_lt_succ h)

theorem rowAt_ge (l : DataFrame) (i : Nat) (h : l.length ≤ i) :
    rowAt l i = [] := by
  induction l generalizing i with
  | nil => cases i <;> rfl
  | cons r l ih =>
    cases i with
    | zero => cases h
    | succ i => exact ih i (Nat.le_of_succ_le_succ h)

/-! ### Deduplication -/

theorem uniqueList_foldl_nodup (xs : List Cell) (acc : List Cell) (h : acc.Nodup) :
    (xs.foldl (fun acc x => if x ∈ acc then acc else acc ++ [x]) acc).Nodup := by
  induction xs generalizing acc with
  | nil => exact h
  | cons x xs ih =>
    rw [List.foldl_cons]
    by_cases hx : x ∈ acc
    · rw [if_pos hx]
      exact ih acc h
    · rw [if_neg hx]
      refine ih (acc ++ [x]) ?_
      rw [← List.concat_eq_append]
      exact List.Nodup.concat hx h

theorem uniqueList_nodup (xs : List Cell) : (uniqueList xs).Nodup :=
  uniqueList_foldl_nodup xs [] List.nodup_nil

/-! ### Python dictionaries (insertion with overwrite, inversion) -/

theorem find?_dict_set_self (d : List (String × Nat)) (k : String) (v : Nat)
    (h : d.any (fun p => p.1 == k) = true) :
    (d.map (fun p => if p.1 == k then (k, v) else p)).find? (fun p => p.1 == k)
      = some (k, v) := by
  induction d with
  | nil => cases h
  | cons p d ih =>
    cases hp : (p.1 == k) with
    | true =>
      rw [List.map_cons, if_pos hp]
      simp [List.find?_cons]
    | false =>
      rw [List.map_cons, if_neg (by simp [hp])]
      rw [List.find?_cons]
      simp only [hp]
      have h' : d.any (fun p => p.1 == k) = true := by
        rcases List.any_eq_true.mp h with ⟨q, hq, hqc⟩
        rcases List.mem_cons.mp hq with h1 | h1
        · rw [h1] at hqc
          rw [hqc] at hp
          cases hp
        · exact List.any_eq_true.mpr ⟨q, h1, hqc⟩
      exact ih h'

theorem find?_dict_set_ne (d : List (String × Nat)) (k k' : String) (v : Nat)
    (hne : k ≠ k') :
    (d.map (fun p => if p.1 == k then (k, v) else p)).find? (fun p => p.1 == k')
      = d.find? (fun p => p.1 == k') := by
  induction d with
  | nil => rfl
  | cons p d ih =>
    cases hp : (p.1 == k) with
    | true =>
      rw [List.map_cons, if_pos hp]
      have h2 : (p.1 == k') = false := by
        rw [beq_iff_eq] at hp
        simp [hp, hne]
      have h1 : ((k, v).1 == k') = false := by simp [hne]
      rw [List.find?_cons, List.find?_cons]
      simp only [h1, h2]
      exact ih
    | false =>
      rw [List.map_cons, if_neg (by simp [hp])]
      rw [List.find?_cons, List.find?_cons]
      cases hp' : (p.1 == k') with
      | true => simp
      | false => simp only [hp']; exact ih

theorem dict_get_dict_set (d : List (String × Nat)) (k k' : String) (v : Nat) :
    dict_get (dict_set d k v) k' = if k' = k then some v else dict_get d k' := by
  by_cases hk : k' = k
  · subst hk
    rw [if_pos rfl, dict_set]
    by_cases h : d.any (fun p => p.1 == k')
    · rw [if_pos h, dict_get, find?_dict_set_self d k' v h]
      rfl
    · rw [if_neg h, dict_get, List.find?_append]
      have hn : d.find? (fun p => p.1 == k') = none := by
        rw [List.find?_eq_none]
        intro p hp hpc
        exact h (List.any_eq_true.mpr ⟨p, hp, hpc⟩)
      rw [hn]
      simp
  · rw [if_neg hk, dict_set]
    have hne : k ≠ k' := fun h => hk h.symm
    by_cases h : d.any (fun p => p.1 == k)
    · rw [if_pos h, dict_get, dict_get, find?_dict_set_ne d k k' v hne]
    · rw [if_neg h, dict_get, dict_get, List.find?_append]
      rcases ho : d.find? (fun p => p.1 == k') with _ | p
      · rw [ho, Option.none_or]
        have : ((k, v).1 == k') = false := by simp [hne]
        rw [List.find?_cons]
        simp only [this]
        rfl
      · rw [ho]
        rfl

theorem dict_get_foldl_invert (ps : List (Nat × String)) (d : List (String × Nat))
    (r : String) :
    dict_get (ps.foldl (fun d p => dict_set d p.2 p.1) d) r
      = match ps.reverse.find? (fun p => p.2 == r) with
        | some p => some p.1
        | none => dict_get d r := by
  induction ps generalizing d with
  | nil => rfl
  | cons q ps ih =>
    rw [List.foldl_cons, ih, List.reverse_cons, List.find?_append]
    rcases hf : ps.reverse.find? (fun p => p.2 == r) with _ | p
    · rw [hf, Option.none_or]
      show dict_get (dict_set d q.2 q.1) r
        = match List.find? (fun p => p.2 == r) [q] with
          | some p => some p.1
          | none => dict_get d r
      rw [dict_get_dict_set, List.find?_cons]
      cases hq : (q.2 == r) with
      | true =>
        rw [beq_iff_eq] at hq
        rw [if_pos hq.symm]
      | false =>
        refine (if_neg ?_).trans ?_
        · intro hr
          rw [hr] at hq
          simp at hq
        · rfl
    · rw [hf]
      rfl

theorem dict_get_invert (ps : List (Nat × String)) (r : String) :
    dict_get (dict_invert ps) r
      = (ps.reverse.find? (fun p => p.2 == r)).map Prod.fst := by
  rw [dict_invert, dict_get_foldl_invert]
  rcases hf : ps.reverse.find? (fun p => p.2 == r) with _ | p
  · rw [hf]
    rfl
  · rw [hf]
    rfl

/-! ### The rank record of one resolved lineage -/

theorem rankRow_keys (ncbi : NCBITaxa) (lineage : List Nat) :
    (rankRow ncbi lineage).map Prod.fst = ranks := by
  rw [rankRow, List.map_map]
  exact List.map_id ranks

theorem getCell_rankRow (ncbi : NCBITaxa) (lineage : List Nat) (r : String)
    (h : r ∈ ranks) :
    getCell (rankRow ncbi lineage) r
      = (dict_get (dict_invert (lineage.map (fun lid => (lid, ncbi.rank lid)))) r).map
          ncbi.name := by
  exact getCell_keyed_map ranks
    (fun rk =>
      (dict_get (dict_invert (lineage.map (fun lid => (lid, ncbi.rank lid)))) rk).map
        ncbi.name) r h

theorem getCell_rankRow_isSome_iff (ncbi : NCBITaxa) (lineage : List Nat) (r : String)
    (h : r ∈ ranks) :
    (getCell (rankRow ncbi lineage) r).isSome = true ↔ r ∈ lineage.map ncbi.rank := by
  rw [getCell_rankRow ncbi lineage r h, dict_get_invert]
  rcases hf : (lineage.map (fun lid => (lid, ncbi.rank lid))).reverse.find?
      (fun p => p.2 == r) with _ | p
  · rw [hf]
    simp only [Option.map_none', Option.isSome_none, Bool.false_eq_true, false_iff]
    intro hr
    rcases List.mem_map.mp hr with ⟨lid, hlid, hrank⟩
    rw [List.find?_eq_none] at hf
    exact hf (lid, ncbi.rank lid)
      (List.mem_reverse.mpr (List.mem_map.mpr ⟨lid, hlid, rfl⟩)) (by simp [hrank])
  · rw [hf]
    simp only [Option.map_some', Option.isSome_some, true_iff]
    have hp := List.find?_some hf
    have hm := List.mem_of_find?_eq_some hf
    rw [List.mem_reverse] at hm
    rcases List.mem_map.mp hm with ⟨lid, hlid, hpair⟩
    rw [beq_iff_eq] at hp
    refine List.mem_map.mpr ⟨lid, hlid, ?_⟩
    rw [← hp, ← hpair]

/-! ### load_taxonomy_lineage -/

theorem load_rows_eq_filterMap (tax_ids : List Cell) (ncbi : NCBITaxa) :
    (load_taxonomy_lineage tax_ids ncbi).rows = tax_ids.filterMap (resolveOne ncbi) := by
  induction tax_ids with
  | nil => rfl
  | cons t rest ih =>
    rw [load_taxonomy_lineage, List.filterMap_cons, resolveOne]
    rcases h1 : t.bind int? with _ | tid
    · simpa [h1] using ih
    · rcases h2 : ncbi.get_lineage tid with _ | lineage
      · simpa [h1, h2] using ih
      · simpa [h1, h2] using ih

theorem load_append (xs ys : List Cell) (ncbi : NCBITaxa) :
    load_taxonomy_lineage (xs ++ ys) ncbi
      = ⟨(load_taxonomy_lineage xs ncbi).rows ++ (load_taxonomy_lineage ys ncbi).rows,
         (load_taxonomy_lineage xs ncbi).warnings
           ++ (load_taxonomy_lineage ys ncbi).warnings,
         (load_taxonomy_lineage xs ncbi).calls
           ++ (load_taxonomy_lineage ys ncbi).calls⟩ := by
  induction xs with
  | nil => rfl
  | cons t rest ih =>
    rcases h1 : t.bind int? with _ | tid
    · simp [List.cons_append, load_taxonomy_lineage, h1, ih]
    · rcases h2 : ncbi.get_lineage tid with _ | lineage
      · simp [List.cons_append, load_taxonomy_lineage, h1, h2, ih]
      · simp [List.cons_append, load_taxonomy_lineage, h1, h2, ih]

theorem load_calls_eq_filterMap (tax_ids : List Cell) (ncbi : NCBITaxa) :
    (load_taxonomy_lineage tax_ids ncbi).calls
      = tax_ids.filterMap (fun c => c.bind int?) := by
  induction tax_ids with
  | nil => rfl
  | cons t rest ih =>
    rw [load_taxonomy_lineage, List.filterMap_cons]
    rcases h1 : t.bind int? with _ | tid
    · simpa [h1] using ih
    · rcases h2 : ncbi.get_lineage tid with _ | lineage
      · simpa [h1, h2] using ih
      · simpa [h1, h2] using ih

/-! ### Splitting annotation strings -/

theorem splitEqChars_no_eq (cs : List Char) (h : '=' ∉ cs) : splitEqChars cs = [cs] := by
  induction cs with
  | nil => rfl
  | cons c cs ih =>
    have hc : c ≠ '=' := fun hcc => h (hcc ▸ List.mem_cons_self c cs)
    have hcs : '=' ∉ cs := fun hm => h (List.mem_cons_of_mem c hm)
    rw [splitEqChars, ih hcs]
    simp [hc]

theorem lastEq_no_eq (s : String) (h : '=' ∉ s.data) : lastEq s = s := by
  rw [lastEq, splitEqChars_no_eq s.data h]
  rfl

/-! ### The left merge -/

theorem getCell_key_head (t : Cell) (row : Row) :
    getCell (("tax_ID", t) :: row) "tax_ID" = t := by
  simp [getCell, List.find?_cons]

theorem flatten_singletons (l : List Row) (g : Row → Row) :
    (l.map (fun x => [g x])).flatten = l.map g := by
  induction l with
  | nil => rfl
  | cons x l ih => simp [ih]

theorem filter_key_nodup (right : List Row) (k : Cell)
    (h : (right.map (fun rr => getCell rr "tax_ID")).Nodup) :
    right.filter (fun rr => getCell rr "tax_ID" == k)
      = (right.find? (fun rr => getCell rr "tax_ID" == k)).toList := by
  induction right with
  | nil => rfl
  | cons c rest ih =>
    rw [List.map_cons, List.nodup_cons] at h
    rw [List.filter_cons, List.find?_cons]
    cases hc : (getCell c "tax_ID" == k) with
    | true =>
      have hrest : rest.filter (fun rr => getCell rr "tax_ID" == k) = [] := by
        rw [List.filter_eq_nil_iff]
        intro x hx hxk
        rw [beq_iff_eq] at hc hxk
        exact h.1 (List.mem_map.mpr ⟨x, hx, by rw [hxk, hc]⟩)
      simp only [hrest]
      rfl
    | false =>
      simp only []
      exact ih h.2

theorem mergeLeft_eq_map (left right : List Row)
    (h : (right.map (fun rr => getCell rr "tax_ID")).Nodup) :
    mergeLeft left right = left.map (fun lr => lr ++ matchRow lr right) := by
  rw [mergeLeft]
  have hmap : left.map (fun lr =>
      let ms := right.filter (fun rr => getCell rr "tax_ID" == getCell lr "tax_ID")
      if ms.isEmpty then [lr ++ emptyRankRow]
      else ms.map (fun rr => lr ++ rr.filter (fun p => p.1 != "tax_ID")))
      = left.map (fun lr => [lr ++ matchRow lr right]) := by
    refine List.map_congr_left ?_
    intro lr _
    rw [filter_key_nodup right (getCell lr "tax_ID") h]
    rcases hf : right.find? (fun rr => getCell rr "tax_ID" == getCell lr "tax_ID")
        with _ | rr
    · simp only [hf, Option.toList_none, List.isEmpty_nil, if_pos]
      rw [matchRow, hf]
    · simp only [hf, Option.toList_some, List.isEmpty_cons, List.map_cons, List.map_nil]
      rw [matchRow, hf]
      rfl
  rw [hmap, flatten_singletons]

theorem mergeLeft_length (left right : List Row)
    (h : (right.map (fun rr => getCell rr "tax_ID")).Nodup) :
    (mergeLeft left right).length = left.length := by
  rw [mergeLeft_eq_map left right h, List.length_map]

/-! ### Gluing the identifier series onto the resolver output -/

theorem concat_keys (ids : List Cell) (rows : List Row) :
    (concat_taxid_ranks ids rows).map (fun rr => getCell rr "tax_ID") = ids := by
  induction ids generalizing rows with
  | nil => rfl
  | cons t ts ih =>
    rw [concat_taxid_ranks, List.map_cons, ih, getCell_key_head]

/-! ### get_taxa assembled -/

theorem tax_ids_nodup (annot : DataFrame) : (tax_ids_of annot).Nodup :=
  uniqueList_nodup _

theorem get_taxa_eq_map (annot : DataFrame) (fmt : String) (ncbi : NCBITaxa) :
    get_taxa annot fmt ncbi
      = (extract_tax_id_col annot).map
          (fun lr => lr ++ matchRow lr
            (concat_taxid_ranks (tax_ids_of annot)
              (load_taxonomy_lineage (tax_ids_of annot) ncbi).rows)) := by
  have h : ((concat_taxid_ranks (tax_ids_of annot)
        (load_taxonomy_lineage (tax_ids_of annot) ncbi).rows).map
          (fun rr => getCell rr "tax_ID")).Nodup := by
    rw [concat_keys]
    exact tax_ids_nodup annot
  exact mergeLeft_eq_map (extract_tax_id_col annot) _ h

theorem get_taxa_length (annot : DataFrame) (fmt : String) (ncbi : NCBITaxa) :
    (get_taxa annot fmt ncbi).length = annot.length := by
  rw [get_taxa_eq_map, List.length_map, extract_tax_id_col, List.length_map]

theorem get_taxa_taxID (annot : DataFrame) (fmt : String) (ncbi : NCBITaxa) (i : Nat)
    (h : i < annot.length) :
    getCell (rowAt (get_taxa annot fmt ncbi) i) "tax_ID"
      = (getCell (rowAt annot i) "Tax").map lastEq := by
  rw [get_taxa_eq_map]
  have hlen : i < (extract_tax_id_col annot).length := by
    rw [extract_tax_id_col, List.length_map]
    exact h
  rw [rowAt_map _ _ i hlen, extract_tax_id_col, rowAt_map _ _ i h]
  rw [getCell_append_left _ _ _ (hasCol_setCell_self _ _ _), getCell_setCell_self]

/-! ### The renderer's mutations -/

theorem setCell_cells_some (r : Row) (c : String) (s : String)
    (h : ∀ p ∈ r, (Prod.snd p).isSome = true) :
    ∀ p ∈ setCell r c (some s), (Prod.snd p).isSome = true := by
  intro p hp
  rw [setCell] at hp
  by_cases ha : r.any (fun q => q.1 == c)
  · rw [if_pos ha] at hp
    rcases List.mem_map.mp hp with ⟨q, hq, rfl⟩
    cases hqc : (q.1 == c) with
    | true => rfl
    | false => exact h q hq
  · rw [if_neg ha] at hp
    rcases List.mem_append.mp hp with hp | hp
    · exact h p hp
    · rw [List.mem_singleton] at hp
      subst hp
      rfl

theorem getCell_fill_row (r : Row) (col : String) (h : hasCol r col = true) :
    getCell (r.map (fun p => (p.1, some (p.2.getD "Other")))) col
      = some ((getCell r col).getD "Other") := by
  induction r with
  | nil => cases h
  | cons p r ih =>
    cases hp : (p.1 == col) with
    | true =>
      rw [List.map_cons, getCell, getCell, List.find?_cons, List.find?_cons]
      simp only [hp]
      rfl
    | false =>
      have h' : hasCol r col = true := by
        rcases List.any_eq_true.mp h with ⟨q, hq, hqc⟩
        rcases List.mem_cons.mp hq with h1 | h1
        · rw [h1] at hqc
          rw [hqc] at hp
          cases hp
        · exact List.any_eq_true.mpr ⟨q, h1, hqc⟩
      have e1 : getCell ((p :: r).map (fun p => (p.1, some (p.2.getD "Other")))) col
          = getCell (r.map (fun p => (p.1, some (p.2.getD "Other")))) col := by
        rw [List.map_cons, getCell, getCell, List.find?_cons]
        simp only [hp]
      have e2 : getCell (p :: r) col = getCell r col := by
        rw [getCell, getCell, List.find?_cons]
        simp only [hp]
      rw [e1, e2]
      exact ih h'

/-! ### Claims -/

/-- Claim C2: for every input annotation table, the enrichment output of
get_taxa has exactly the same number of rows as the input table — the left
join neither drops nor duplicates a row. -/
theorem C2_row_count_preserved (annot : DataFrame) (fmt : String) (ncbi : NCBITaxa) :
    (get_taxa annot fmt ncbi).length = annot.length :=
  get_taxa_length annot fmt ncbi

/-- Claim C3: when chain resolution of one identifier raises a
value-validation error (int parsing or get_lineage), load_taxonomy_lineage
logs a warning for that identifier, emits no row at all for it, and still
emits the rows of every other identifier of the batch, before and after the
bad one; as a total function it never propagates the error. -/
theorem C3_skip_and_continue (ncbi : NCBITaxa) (pre post : List Cell) (bad : Cell)
    (hbad : (bad.bind int?).bind ncbi.get_lineage = none) :
    (load_taxonomy_lineage (pre ++ bad :: post) ncbi).rows
        = (load_taxonomy_lineage pre ncbi).rows ++ (load_taxonomy_lineage post ncbi).rows
      ∧ (load_taxonomy_lineage (pre ++ bad :: post) ncbi).warnings
        = (load_taxonomy_lineage pre ncbi).warnings
            ++ bad :: (load_taxonomy_lineage post ncbi).warnings := by
  have hA := congrArg LoadResult.rows (load_append pre (bad :: post) ncbi)
  have hB := congrArg LoadResult.warnings (load_append pre (bad :: post) ncbi)
  rcases h1 : bad.bind int? with _ | tid
  · have hr : (load_taxonomy_lineage (bad :: post) ncbi).rows
        = (load_taxonomy_lineage post ncbi).rows := by
      simp [load_taxonomy_lineage, h1]
    have hw : (load_taxonomy_lineage (bad :: post) ncbi).warnings
        = bad :: (load_taxonomy_lineage post ncbi).warnings := by
      simp [load_taxonomy_lineage, h1]
    exact ⟨by rw [hA]; simp [hr], by rw [hB]; simp [hw]⟩
  · have h2 : ncbi.get_lineage tid = none := by
      rw [h1] at hbad
      simpa using hbad
    have hr : (load_taxonomy_lineage (bad :: post) ncbi).rows
        = (load_taxonomy_lineage post ncbi).rows := by
      simp [load_taxonomy_lineage, h1, h2]
    have hw : (load_taxonomy_lineage (bad :: post) ncbi).warnings
        = bad :: (load_taxonomy_lineage post ncbi).warnings := by
      simp [load_taxonomy_lineage, h1, h2]
    exact ⟨by rw [hA]; simp [hr], by rw [hB]; simp [hw]⟩

/-- Witness for claim C3 at a concrete batch: identifier 7 fails under
testNCBI between two occurrences of the resolving identifier 9. -/
theorem C3_skip_and_continue_witness :
    (load_taxonomy_lineage ([some "9"] ++ some "7" :: [some "9"]) testNCBI).rows
        = (load_taxonomy_lineage [some "9"] testNCBI).rows
            ++ (load_taxonomy_lineage [some "9"] testNCBI).rows
      ∧ (load_taxonomy_lineage ([some "9"] ++ some "7" :: [some "9"]) testNCBI).warnings
        = (load_taxonomy_lineage [some "9"] testNCBI).warnings
            ++ some "7" :: (load_taxonomy_lineage [some "9"] testNCBI).warnings :=
  C3_skip_and_continue testNCBI [some "9"] [some "9"] (some "7") (by decide)

/-- Claim C6: for every row of the input table, get_taxa sets the new tax_ID
column to the segment of the "Tax" annotation value after the last '='
character. -/
theorem C6_tax_id_extraction (annot : DataFrame) (fmt : String) (ncbi : NCBITaxa)
    (i : Nat) (h : i < annot.length) :
    getCell (rowAt (get_taxa annot fmt ncbi) i) "tax_ID"
      = (getCell (rowAt annot i) "Tax").map lastEq :=
  get_taxa_taxID annot fmt ncbi i h

/-- Witness for claim C6: the annotation value "OS=Homo sapiens Tax=9606"
yields tax_ID "9606". -/
theorem C6_tax_id_extraction_witness :
    getCell (rowAt (get_taxa exAnnot "stockholm" humanNCBI) 0) "tax_ID"
      = some "9606" := by
  have h := C6_tax_id_extraction exAnnot "stockholm" humanNCBI 0 (by decide)
  rw [h]
  decide

/-- Claim C10: for every row whose "Tax" annotation value contains no '='
character, get_taxa sets tax_ID to the entire unmodified annotation string
(the split yields the whole string as its only and last segment), and the
extraction raises no error. -/
theorem C10_no_delimiter_whole_string (annot : DataFrame) (fmt : String)
    (ncbi : NCBITaxa) (i : Nat) (s : String) (h : i < annot.length)
    (hs : getCell (rowAt annot i) "Tax" = some s) (hq : '=' ∉ s.data) :
    getCell (rowAt (get_taxa annot fmt ncbi) i) "tax_ID" = some s := by
  rw [get_taxa_taxID annot fmt ncbi i h, hs, Option.map_some', lastEq_no_eq s hq]

/-- Witness for claim C10: the annotation value "12345" has no '=' and is
extracted whole. -/
theorem C10_no_delimiter_whole_string_witness :
    getCell (rowAt (get_taxa exNoEq "stockholm" testNCBI) 0) "tax_ID"
      = some "12345" :=
  C10_no_delimiter_whole_string exNoEq "stockholm" testNCBI 0 "12345"
    (by decide) (by decide) (by decide)

/-- Claim C1 evaluated at the failing input: on exMix under testNCBI the
identifier 7 fails chain resolution, yet the output row carrying tax_ID "7"
holds the species name resolved for identifier 9, while the row carrying
tax_ID "9" holds an absent species value.  The positional concat of the full
deduplicated identifier series with the shortened resolver output shifts the
rank records onto the wrong identifiers, contradicting the claim that every
row acquires exactly the rank values of its own resolved identifier. -/
theorem C1_misassigned_ranks_at_failing_input :
    resolveOne testNCBI (some "7") = none
      ∧ resolveOne testNCBI (some "9") = some (rankRow testNCBI [1, 9])
      ∧ getCell (rankRow testNCBI [1, 9]) "species" = some "Species9"
      ∧ getCell (rowAt (get_taxa exMix "stockholm" testNCBI) 0) "tax_ID" = some "7"
      ∧ getCell (rowAt (get_taxa exMix "stockholm" testNCBI) 0) "species"
          = some "Species9"
      ∧ getCell (rowAt (get_taxa exMix "stockholm" testNCBI) 1) "tax_ID" = some "9"
      ∧ getCell (rowAt (get_taxa exMix "stockholm" testNCBI) 1) "species" = none := by
  decide

/-- Claim C4: for every identifier that resolves, its rank record has exactly
the eight recognized rank keys as its columns — unrecognized rank labels
never surface — and each rank's value is populated if and only if that rank
label occurs somewhere in the identifier's ancestor chain. -/
theorem C4_rank_record_complete (ncbi : NCBITaxa) (tax_id : Cell) (tid : Nat)
    (lineage : List Nat) (h1 : tax_id.bind int? = some tid)
    (h2 : ncbi.get_lineage tid = some lineage) :
    resolveOne ncbi tax_id = some (rankRow ncbi lineage)
      ∧ (rankRow ncbi lineage).map Prod.fst = ranks
      ∧ ∀ r ∈ ranks,
          ((getCell (rankRow ncbi lineage) r).isSome = true
            ↔ r ∈ lineage.map ncbi.rank) := by
  refine ⟨?_, rankRow_keys ncbi lineage,
    fun r hr => getCell_rankRow_isSome_iff ncbi lineage r hr⟩
  simp [resolveOne, h1, h2]

/-- Witness for claim C4: the spec's 9606 example — all seven chain ranks
populated, subphylum absent. -/
theorem C4_rank_record_complete_witness :
    resolveOne humanNCBI (some "9606")
        = some (rankRow humanNCBI [131567, 2759, 7711, 40674, 9443, 9604, 9605, 9606])
      ∧ getCell (rankRow humanNCBI [131567, 2759, 7711, 40674, 9443, 9604, 9605, 9606])
          "subphylum" = none
      ∧ getCell (rankRow humanNCBI [131567, 2759, 7711, 40674, 9443, 9604, 9605, 9606])
          "species" = some "Homo sapiens" :=
  ⟨(C4_rank_record_complete humanNCBI (some "9606") 9606
      [131567, 2759, 7711, 40674, 9443, 9604, 9605, 9606] (by decide) (by decide)).1,
   by decide, by decide⟩

/-- Claim C5: when an ancestor chain contains more than one node sharing the
same recognized rank label, the name recorded for that rank is the name of
the later node encountered while walking the chain — the sequential
insertion keyed by rank label overwrites the earlier node's name. -/
theorem C5_later_node_wins (ncbi : NCBITaxa) (tax_id : Cell) (tid : Nat)
    (l1 l2 l3 : List Nat) (a b : Nat) (r : String)
    (h1 : tax_id.bind int? = some tid)
    (h2 : ncbi.get_lineage tid = some (l1 ++ a :: l2 ++ b :: l3))
    (hr : r ∈ ranks) (ha : ncbi.rank a = r) (hb : ncbi.rank b = r)
    (hlast : ∀ x ∈ l3, ncbi.rank x ≠ r) :
    resolveOne ncbi tax_id = some (rankRow ncbi (l1 ++ a :: l2 ++ b :: l3))
      ∧ getCell (rankRow ncbi (l1 ++ a :: l2 ++ b :: l3)) r = some (ncbi.name b) := by
  constructor
  · simp [resolveOne, h1, h2]
  · have h3 : (List.map (fun lid => (lid, ncbi.rank lid)) l3).reverse.find?
        (fun p => p.2 == r) = none := by
      rw [List.find?_eq_none]
      intro p hp
      rw [List.mem_reverse, List.mem_map] at hp
      rcases hp with ⟨x, hx, rfl⟩
      simp [hlast x hx]
    have hbp : ((b, ncbi.rank b).2 == r) = true := by simp [hb]
    rw [getCell_rankRow ncbi (l1 ++ a :: l2 ++ b :: l3) r hr, dict_get_invert]
    simp only [List.map_append, List.map_cons, List.reverse_append, List.reverse_cons,
      List.append_assoc, List.find?_append, h3, Option.none_or, List.find?_cons, hbp,
      Option.or_some, Option.map_some']

/-- Witness for claim C5: under dupRankNCBI the chain [1, 2, 3] carries two
genus nodes (2 then 3); the recorded genus name is node 3's. -/
theorem C5_later_node_wins_witness :
    resolveOne dupRankNCBI (some "3")
        = some (rankRow dupRankNCBI ([1] ++ 2 :: [] ++ 3 :: []))
      ∧ getCell (rankRow dupRankNCBI ([1] ++ 2 :: [] ++ 3 :: [])) "genus"
          = some (dupRankNCBI.name 3) :=
  C5_later_node_wins dupRankNCBI (some "3") 3 [1] [] [] 2 3 "genus"
    (by decide) (by decide) (by decide) (by decide) (by decide) (by decide)

/-- Claim C7 as stated is false at a concrete input: exNoParse has exactly
one distinct extracted identifier, "abc", yet get_taxa issues zero
get_lineage invocations for it, because int("abc") raises ValueError before
the external database is ever reached — not exactly one invocation per
distinct extracted identifier. -/
theorem C7_once_per_distinct_counterexample :
    tax_ids_of exNoParse = [some "abc"]
      ∧ get_taxa_lineage_calls exNoParse testNCBI = []
      ∧ (get_taxa_lineage_calls exNoParse testNCBI).length
          ≠ (tax_ids_of exNoParse).length := by
  decide

/-- Claim C7 amended: lineage resolution is performed on the deduplicated
identifier set, never once per table row — get_lineage is invoked exactly
once, in order, for each distinct extracted identifier that parses as an
integer, and not at all for a distinct identifier that fails integer
parsing. -/
theorem C7_once_per_distinct_amended (annot : DataFrame) (ncbi : NCBITaxa) :
    get_taxa_lineage_calls annot ncbi
        = (tax_ids_of annot).filterMap (fun c => c.bind int?)
      ∧ (tax_ids_of annot).Nodup :=
  ⟨load_calls_eq_filterMap (tax_ids_of annot) ncbi, tax_ids_nodup annot⟩

/-- Claim C8: the table that sunburst passes to the external chart primitive
contains no absent value in any column — in particular in no column of any
chosen hierarchy path: every absent value of the whole table has been
replaced by the sentinel label "Other" before the chart call, so no row is
excluded for an absent intermediate rank. -/
theorem C8_render_input_no_absent (annot : DataFrame) (title : String)
    (hier : List String) (color_map : List (String × String)) :
    ∀ r ∈ (sunburst annot title hier color_map).1.data, ∀ p ∈ r,
      (Prod.snd p).isSome = true := by
  intro r hr p hp
  rcases List.mem_map.mp hr with ⟨r1, hr1, rfl⟩
  rcases List.mem_map.mp hr1 with ⟨r0, hr0, rfl⟩
  refine setCell_cells_some _ "count" "1" ?_ p hp
  intro q hq
  rcases List.mem_map.mp hq with ⟨q0, hq0, rfl⟩
  rfl

/-- Witness for claim C8: the row of exSun with its absent phylum appears in
the chart input with phylum "Other", a present value. -/
theorem C8_render_input_no_absent_witness :
    [("superkingdom", (some "Bacteria" : Cell)), ("phylum", some "Other"),
        ("count", some "1")]
      ∈ (sunburst exSun "t" SUNBURST_HIERARCHY COLOR_DISCRETE_MAP).1.data
      ∧ (Prod.snd ("phylum", (some "Other" : Cell))).isSome = true :=
  ⟨by decide,
   C8_render_input_no_absent exSun "t" SUNBURST_HIERARCHY COLOR_DISCRETE_MAP
     [("superkingdom", some "Bacteria"), ("phylum", some "Other"), ("count", some "1")]
     (by decide) ("phylum", some "Other") (by decide)⟩

/-- Claim C9: sunburst mutates the caller's table (modelled by the returned
post-call state): in every row, every column that existed before holds its
previous value, with every previously absent value — in any column, not only
rank columns — replaced by "Other", and a new "count" column with the
constant value 1 (modelled by the string "1") has been added. -/
theorem C9_sunburst_mutates_caller (annot : DataFrame) (title : String)
    (hier : List String) (color_map : List (String × String)) (i : Nat)
    (col : String) :
    (col ≠ "count" → hasCol (rowAt annot i) col = true →
        getCell (rowAt (sunburst annot title hier color_map).2 i) col
          = some ((getCell (rowAt annot i) col).getD "Other"))
      ∧ (i < annot.length →
          getCell (rowAt (sunburst annot title hier color_map).2 i) "count"
            = some "1") := by
  constructor
  · intro hcol hhas
    have hi : i < annot.length := by
      by_contra hge
      rw [rowAt_ge annot i (Nat.le_of_not_lt hge)] at hhas
      cases hhas
    have hi1 : i < (annot.map
        (fun r => r.map (fun p => (p.1, some (p.2.getD "Other"))))).length := by
      rw [List.length_map]
      exact hi
    show getCell (rowAt ((annot.map
        (fun r => r.map (fun p => (p.1, some (p.2.getD "Other"))))).map
          (fun r => setCell r "count" (some "1"))) i) col = _
    rw [rowAt_map _ _ i hi1, rowAt_map _ _ i hi]
    rw [getCell_setCell_ne _ "count" col _ (fun hcc => hcol hcc.symm)]
    exact getCell_fill_row (rowAt annot i) col hhas
  · intro hi
    have hi1 : i < (annot.map
        (fun r => r.map (fun p => (p.1, some (p.2.getD "Other"))))).length := by
      rw [List.length_map]
      exact hi
    show getCell (rowAt ((annot.map
        (fun r => r.map (fun p => (p.1, some (p.2.getD "Other"))))).map
          (fun r => setCell r "count" (some "1"))) i) "count" = _
    rw [rowAt_map _ _ i hi1, getCell_setCell_self]

/-- Witness for claim C9 at exSun: the caller's phylum cell, absent before
the call, reads "Other" afterwards, and the new count column reads 1. -/
theorem C9_sunburst_mutates_caller_witness :
    getCell (rowAt (sunburst exSun "t" SUNBURST_HIERARCHY COLOR_DISCRETE_MAP).2 0)
        "phylum" = some ((getCell (rowAt exSun 0) "phylum").getD "Other")
      ∧ getCell (rowAt (sunburst exSun "t" SUNBURST_HIERARCHY COLOR_DISCRETE_MAP).2 0)
          "count" = some "1" :=
  ⟨(C9_sunburst_mutates_caller exSun "t" SUNBURST_HIERARCHY COLOR_DISCRETE_MAP 0
      "phylum").1 (by decide) (by decide),
   (C9_sunburst_mutates_caller exSun "t" SUNBURST_HIERARCHY COLOR_DISCRETE_MAP 0
      "phylum").2 (by decide)⟩
